import Mathlib

/-!
Verification of the DeviceFingerprint identity-and-redirect pipeline.

The JavaScript source (src/js/script.js, with src/unnamed/part_000 an
earlier variant of the same logic) is shallowly embedded here.  JavaScript
strings are modelled as lists of natural-number character codes
(`Str := List Nat`); `window.location.search` and every value that flows
through `URLSearchParams` is ASCII in a serialized URL, so code points and
bytes coincide on the inputs we quantify over.  Asynchronous behaviour is
modelled by passing the outcome of the one remote fetch explicitly, and —
for the timeout claims — by a discrete time stamp giving the instant at
which the remote response would settle.
-/

/-- JavaScript strings as lists of character codes. -/
abbrev Str := List Nat

/-- Character codes of a Lean string literal, for writing concrete inputs. -/
def jsStr (s : String) : Str := s.data.map Char.toNat

/-! ## The application/x-www-form-urlencoded layer (URLSearchParams)

`URLSearchParams` parsing splits the query on `&` (code 38), splits each
nonempty piece at its first `=` (code 61), and percent-decodes name and
value with `+` (code 43) meaning space.  Serialization percent-encodes
every byte outside `[A-Za-z0-9*-._]`, writing space as `+` and other bytes
as `%XX` with uppercase hexadecimal digits. -/

/-- Bytes the urlencoded serializer leaves unescaped:
`0-9`, `A-Z`, `a-z`, `*` (42), `-` (45), `.` (46), `_` (95). -/
def isUrlencodedSafe (b : Nat) : Bool :=
  (48 ≤ b && b ≤ 57) || (65 ≤ b && b ≤ 90) || (97 ≤ b && b ≤ 122) ||
  b == 42 || b == 45 || b == 46 || b == 95

/-- Uppercase hexadecimal digit character for a value below 16. -/
def toUpperHexDigit (n : Nat) : Nat := if n < 10 then 48 + n else 55 + n

/-- `%XX` escape of one byte, uppercase hexadecimal. -/
def percentEncodeByte (b : Nat) : Str := [37, toUpperHexDigit (b / 16), toUpperHexDigit (b % 16)]

/-- One byte under the urlencoded serializer. -/
def urlencodeByte (b : Nat) : Str :=
  if b == 32 then [43] else if isUrlencodedSafe b then [b] else percentEncodeByte b

/-- The urlencoded serializer on a byte string. -/
def urlencode (s : Str) : Str := (s.map urlencodeByte).flatten

/-- Is this character code a hexadecimal digit (`0-9`, `A-F`, `a-f`)? -/
def isHexDigitByte (b : Nat) : Bool :=
  (48 ≤ b && b ≤ 57) || (65 ≤ b && b ≤ 70) || (97 ≤ b && b ≤ 102)

/-- Numeric value of a hexadecimal digit character. -/
def hexVal (b : Nat) : Nat :=
  if b ≤ 57 then b - 48 else if b ≤ 70 then b - 55 else b - 87

/-- JavaScript `s.split(sep)` for a one-character separator: always at
least one piece, an empty input giving `[[]]`. -/
def splitSep (sep : Nat) : Str → List Str
  | [] => [[]]
  | b :: rest =>
      let r := splitSep sep rest
      if b = sep then [] :: r
      else (b :: r.headD []) :: r.tail

/-- Join pieces with a one-character separator (the inverse of `splitSep`
on separator-free pieces). -/
def joinSep (sep : Nat) : List Str → Str
  | [] => []
  | [p] => p
  | p :: ps => p ++ sep :: joinSep sep ps

/-- Percent-decoding as `URLSearchParams` does it: `+` becomes space, a `%`
followed by two hexadecimal digits becomes that byte, and anything
malformed is passed through unchanged. -/
def percentDecode : Str → Str
  | [] => []
  | 37 :: h :: l :: rest =>
      if isHexDigitByte h && isHexDigitByte l then
        (hexVal h * 16 + hexVal l) :: percentDecode rest
      else 37 :: percentDecode (h :: l :: rest)
  | 43 :: rest => 32 :: percentDecode rest
  | b :: rest => b :: percentDecode rest

/-- Split a piece at its first `=` (code 61): name before, value after; a
piece with no `=` is all name with an empty value. -/
def splitFirstEq : Str → Str × Str
  | [] => ([], [])
  | b :: rest =>
      if b = 61 then ([], rest)
      else ((splitFirstEq rest).1.cons b, (splitFirstEq rest).2)

/-- `URLSearchParams` parsing of a query body (no leading `?`): split on
`&`, drop empty pieces, split each piece at its first `=`, percent-decode
names and values. -/
def parseQueryBody (q : Str) : List (Str × Str) :=
  ((splitSep 38 q).filter (fun piece => !piece.isEmpty)).map
    (fun piece => (percentDecode (splitFirstEq piece).1, percentDecode (splitFirstEq piece).2))

/-- `URLSearchParams` on `window.location.search`: one leading `?`
(code 63) is stripped before parsing. -/
def parseQuery (search : Str) : List (Str × Str) :=
  match search with
  | 63 :: rest => parseQueryBody rest
  | s => parseQueryBody s

/-- `URLSearchParams.toString()`: serialize each pair as
`name=value` under the urlencoded serializer and join the pieces with `&`. -/
def serializePair (p : Str × Str) : Str := urlencode p.1 ++ 61 :: urlencode p.2

/-- Serialization of a whole parameter list. -/
def serializePairs (l : List (Str × Str)) : Str := joinSep 38 (l.map serializePair)

/-- `URLSearchParams.get(name)`: value of the first pair with this name,
or absent. -/
def getParam (pairs : List (Str × Str)) (name : Str) : Option Str :=
  (pairs.find? (fun p => p.1 == name)).map (fun p => p.2)

/-- `decodeURIComponent`: strict percent-decoding that throws a `URIError`
(modelled as `none`) when a `%` is not followed by two hexadecimal digits.
It does not translate `+`.  (The UTF-8 validity check the browser also
performs is not modelled; every input in this development is ASCII.) -/
def decodeURIComponent : Str → Option Str
  | [] => some []
  | 37 :: h :: l :: rest =>
      if isHexDigitByte h && isHexDigitByte l then
        (decodeURIComponent rest).map (fun d => (hexVal h * 16 + hexVal l) :: d)
      else none
  | 37 :: rest => none
  | b :: rest => (decodeURIComponent rest).map (fun d => b :: d)

/-- Character codes of the routing key `URL`. -/
def urlKey : Str := jsStr "URL"

/-- `extractBaseUrlAndParams` from src/js/script.js lines 5-11:
parse the query, take the `URL` parameter (a nonempty value is run through
`decodeURIComponent`, absent or empty gives `null`), delete every `URL`
pair, and serialize the rest as the passthrough string.  The outer
`Option` is `none` exactly when `decodeURIComponent` throws. -/
def extractBaseUrlAndParams (search : Str) : Option (Option Str × Str) :=
  let params := parseQuery search
  let urlv := getParam params urlKey
  let extraParams := serializePairs (params.filter (fun p => !(p.1 == urlKey)))
  match urlv with
  | some v =>
      if !v.isEmpty then (decodeURIComponent v).map (fun d => (some d, extraParams))
      else some (none, extraParams)
  | none => some (none, extraParams)

/-- Just the passthrough string the extraction hands onward. -/
def extraParamsOf (search : Str) : Str :=
  serializePairs ((parseQuery search).filter (fun p => !(p.1 == urlKey)))

/-! ## The geolocation enrichment (fetchIPData)

The remote lookup settles in one of five ways: the transport fails, the
abort controller cancels the request, the response arrives with a
non-success status (`!response.ok`), the body fails to parse as JSON, or a
JSON object arrives.  `fetchIPData` catches every failure and returns the
empty object `{}`; only a parsed body yields populated fields.  A field of
the parsed JSON object is `Option`al: `none` models a property absent from
(or `undefined` in) the response object. -/

/-- The fields of the remote JSON object the source ever reads. -/
structure GeoRecord where
  status : Option Str
  ip : Option Str
  city : Option Str
  region : Option Str
  country : Option Str
  loc : Option Str
  org : Option Str
deriving DecidableEq

/-- The empty object `{}` returned on every failure path. -/
def emptyGeoRecord : GeoRecord :=
  { status := none, ip := none, city := none, region := none,
    country := none, loc := none, org := none }

/-- Record built from the words of the spec (not from the source): an
all-placeholder record in which every field is present as the string
`N/A`, as the spec says downstream consumers may assume. -/
def specPlaceholderGeoRecord : GeoRecord :=
  { status := some (jsStr "N/A"), ip := some (jsStr "N/A"),
    city := some (jsStr "N/A"), region := some (jsStr "N/A"),
    country := some (jsStr "N/A"), loc := some (jsStr "N/A"),
    org := some (jsStr "N/A") }

/-- How the one remote request settles. -/
inductive FetchOutcome where
  | transportError
  | aborted
  | httpError
  | malformedBody
  | success (g : GeoRecord)
deriving DecidableEq

/-- Is this outcome anything other than a parsed success body? -/
def FetchOutcome.isFailure : FetchOutcome → Bool
  | .success _ => false
  | _ => true

/-- The record `fetchIPData` resolves to, by outcome: the `catch` absorbs
transport errors, aborts and JSON parse failures, and `response.ok ? ... : {}`
absorbs non-success statuses — all four return `{}`. -/
def fetchIPDataResult : FetchOutcome → GeoRecord
  | .transportError => emptyGeoRecord
  | .aborted => emptyGeoRecord
  | .httpError => emptyGeoRecord
  | .malformedBody => emptyGeoRecord
  | .success g => g

/-- The environment of one remote request, carrying the two instants at
which its two awaited promises would settle absent cancellation:
`headerTime` is when `await fetch(...)` settles — response headers arrive,
the transport fails, or the request is aborted — and `bodyTime` is when
`await response.json()` would settle, the body fully downloaded and parsed
or found malformed.  In a real run `headerTime ≤ bodyTime`. -/
structure RemoteEnv where
  headerTime : Nat
  bodyTime : Nat
  outcome : FetchOutcome
deriving DecidableEq

/-- The instant at which the un-aborted call resolves, by outcome: a
transport error, an abort or a non-success status settles at header
arrival (`response.ok ? ... : {}` skips `response.json()` entirely on a
non-success status); a parsed or malformed body resolves only when the
body completes. -/
def fetchSettleTime (env : RemoteEnv) : Nat :=
  match env.outcome with
  | .malformedBody => env.bodyTime
  | .success _ => env.bodyTime
  | _ => env.headerTime

/-- `DeviceFingerprint.fetchIPData(timeout = 5000)` (src/js/script.js
lines 165-180), timed: `setTimeout(() => controller.abort(), timeout)`
fires at `timeoutMs` unless `clearTimeout` has already run — and
`clearTimeout` runs when `await fetch(...)` resolves, at header arrival,
before `await response.json()`.  So only late headers are aborted, the
`catch` then returning `{}` at the timeout instant; once the headers are
in by the timeout the timer is dead and the call resolves at
`fetchSettleTime`, which for a body outcome may lie past the timeout.
Result: the resolved record and the resolve instant. -/
def fetchIPDataTimed (timeoutMs : Nat) (env : RemoteEnv) : GeoRecord × Nat :=
  if timeoutMs < env.headerTime then (emptyGeoRecord, timeoutMs)
  else (fetchIPDataResult env.outcome, fetchSettleTime env)

/-- The other fetch entry point, `fetchIPData(timeout = 5000)` declared
inside `renderConsoleInfo` (src/js/script.js lines 100-108): it accepts a
timeout parameter but creates no abort controller and no timer, so the
call resolves only at `fetchSettleTime`, whatever the timeout. -/
def consoleFetchIPDataTimed (timeoutMs : Nat) (env : RemoteEnv) : GeoRecord × Nat :=
  (fetchIPDataResult env.outcome, fetchSettleTime env)

/-! ## Redirect composition (constructRedirectURL) -/

/-- JavaScript `x || d` on an optional string property: `undefined` and
the empty string are falsy and give the default. -/
def jsOr (o : Option Str) (d : Str) : Str :=
  match o with
  | some v => if v.isEmpty then d else v
  | none => d

/-- The derived parameter block
`uniqueID=...&timezone=...&location=<city>,<region>,<country>` as
`new URLSearchParams({uniqueID, timezone, location}).toString()` builds it,
with `,` written between the three location parts (code 44) and `N/A`
substituted for absent or empty fields. -/
def derivedParams (uniqueID timezone : Str) (ipData : GeoRecord) : Str :=
  serializePairs
    [(jsStr "uniqueID", uniqueID),
     (jsStr "timezone", timezone),
     (jsStr "location",
       jsOr ipData.city (jsStr "N/A") ++ 44 :: jsOr ipData.region (jsStr "N/A")
         ++ 44 :: jsOr ipData.country (jsStr "N/A"))]

/-- `DeviceFingerprint.constructRedirectURL` (src/js/script.js lines
198-210): build the derived block, put a nonempty `extraParams` in front of
it joined with `&`, and join the whole to `baseUrl` with `&` when the base
contains `?` and with `?` otherwise. -/
def constructRedirectURL (uniqueID : Str) (ipData : GeoRecord)
    (baseUrl extraParams timezone : Str) : Str :=
  let params := derivedParams uniqueID timezone ipData
  let fullParams := if !extraParams.isEmpty then extraParams ++ 38 :: params else params
  baseUrl ++ (if baseUrl.contains 63 then [38] else [63]) ++ fullParams

/-! ## The cookie store (IdentityStore)

`document.cookie` read back is the jar serialized as `name=value` rows
joined by a semicolon and space; splitting on semicolon-space recovers
because stored values are `encodeURIComponent`-escaped (no `;`, no space)
and cookie names contain neither.  The jar is therefore modelled as the
row list itself, as name/value pairs. -/

abbrev CookieJar := List (Str × Str)

/-- The rows of the cookie string, split on semicolon-space. -/
def cookieRows (jar : CookieJar) : List Str :=
  jar.map (fun p => p.1 ++ 61 :: p.2)

/-- `DeviceFingerprint.getCookie(name)` (src/js/script.js lines 120-125):
find the first row starting with `name=`, split it on every `=` and take
index 1; no matching row gives `undefined` (`none`). -/
def getCookie (jar : CookieJar) (name : Str) : Option Str :=
  ((cookieRows jar).find? (fun row => (name ++ [61]).isPrefixOf row)).map
    (fun row => (splitSep 61 row).getD 1 [])

/-- Code points `encodeURIComponent` leaves unescaped: alphanumerics and
the nine punctuation marks with codes 45, 95, 46, 33, 126, 42, 39, 40, 41. -/
def isUriUnreserved (b : Nat) : Bool :=
  (48 ≤ b && b ≤ 57) || (65 ≤ b && b ≤ 90) || (97 ≤ b && b ≤ 122) ||
  b == 45 || b == 95 || b == 46 || b == 33 || b == 126 ||
  b == 42 || b == 39 || b == 40 || b == 41

/-- UTF-8 bytes of one code point. -/
def utf8Bytes (c : Nat) : List Nat :=
  if c < 128 then [c]
  else if c < 2048 then [192 + c / 64, 128 + c % 64]
  else if c < 65536 then [224 + c / 4096, 128 + c / 64 % 64, 128 + c % 64]
  else [240 + c / 262144, 128 + c / 4096 % 64, 128 + c / 64 % 64, 128 + c % 64]

/-- `encodeURIComponent`: unreserved code points pass through, everything
else is written as the uppercase `%XX` escapes of its UTF-8 bytes. -/
def encodeURIComponent (s : Str) : Str :=
  (s.map (fun c =>
    if isUriUnreserved c then [c] else ((utf8Bytes c).map percentEncodeByte).flatten)).flatten

/-- `DeviceFingerprint.setCookie(name, value, days)` (src/js/script.js
lines 127-130) as the browser jar update: store
`encodeURIComponent(value)` under `name`, replacing an existing cookie of
that name and appending otherwise.  (Expiry and the fixed attributes
`path=/; SameSite=Strict; Secure` do not affect the jar contents modelled
here; the expiry arithmetic is modelled separately below.) -/
def setCookie (jar : CookieJar) (name value : Str) : CookieJar :=
  let stored := encodeURIComponent value
  if jar.any (fun p => p.1 == name) then
    jar.map (fun p => if p.1 == name then (p.1, stored) else p)
  else jar ++ [(name, stored)]

/-- Milliseconds in one day. -/
def msPerDay : Nat := 86400000

/-- Expiry offset `days * 315360000000` computed by
`DeviceFingerprint.setCookie` in src/js/script.js line 128. -/
def setCookieExpiryOffsetJs (days : Nat) : Nat := days * 315360000000

/-- Expiry offset `days * 86400000` computed by the same method in
src/unnamed/part_000 line 54. -/
def setCookieExpiryOffsetPart0 (days : Nat) : Nat := days * msPerDay

/-! ## Identifier generation (generateUniqueID) -/

/-- Lowercase hexadecimal digit character for a value below 16. -/
def toLowerHexDigit (n : Nat) : Nat := if n < 10 then 48 + n else 87 + n

/-- Digit recursion behind `natToHex`, with an explicit fuel bound on the
recursion depth so the definition stays structurally recursive (the number
of digits of `n` never exceeds `n`, so fuel `n` is always enough). -/
def natToHexAux : Nat → Nat → Str
  | 0, n => [toLowerHexDigit (n % 16)]
  | fuel + 1, n =>
      if n < 16 then [toLowerHexDigit n]
      else natToHexAux fuel (n / 16) ++ [toLowerHexDigit (n % 16)]

/-- `b.toString(16)`: minimal lowercase hexadecimal rendering of a
natural number. -/
def natToHex (n : Nat) : Str := natToHexAux n n

/-- The padStart call: left-pad with the zero digit (code 48) to length two. -/
def padStart2 (s : Str) : Str :=
  if s.length < 2 then List.replicate (2 - s.length) 48 ++ s else s

/-- `DeviceFingerprint.generateUniqueID` (src/js/script.js lines 158-163)
as a function of the digest bytes: render each byte of the SHA-256 digest
as two zero-padded lowercase hexadecimal digits and concatenate.  The
Web Crypto digest itself is an external primitive; its contract — 32
output bytes, each below 256 — appears as the hypotheses of the theorems
below. -/
def generateUniqueID (digestBytes : List Nat) : Str :=
  (digestBytes.map (fun b => padStart2 (natToHex b))).flatten

/-- Is this character code a lowercase hexadecimal digit? -/
def isLowerHexDigit (c : Nat) : Bool :=
  (48 ≤ c && c ≤ 57) || (97 ≤ c && c ≤ 102)

/-! ## The pipeline (DeviceFingerprint.init) -/

/-- Character codes of the storage key `uniqueID`. -/
def uniqueIDKey : Str := jsStr "uniqueID"

/-- Everything one redirect-route run reads from its environment: the
cookie jar at entry, the digest bytes a fresh generation would produce,
the remote fetch outcome, and the values already extracted by
`extractBaseUrlAndParams` plus the resolved timezone. -/
structure InitEnv where
  jar : CookieJar
  digestBytes : List Nat
  fetchOutcome : FetchOutcome
  timezone : Str
  baseUrl : Str
  extraParams : Str
deriving DecidableEq

/-- Everything one run produces: the identifier it used, the jar it leaves
behind, whether a digest was computed, and the redirect URL it navigates to. -/
structure InitResult where
  usedId : Str
  jar : CookieJar
  digestComputed : Bool
  redirectUrl : Str
deriving DecidableEq

/-- `DeviceFingerprint.init` (src/js/script.js lines 182-196):
read the stored identifier with getCookie, and regenerate and write it
when the read value is falsy — absent (undefined) or the empty string —
otherwise reuse it; then fetch enrichment and construct the redirect URL. -/
def initRun (env : InitEnv) : InitResult :=
  let stored := getCookie env.jar uniqueIDKey
  let falsy := match stored with
    | none => true
    | some v => v.isEmpty
  if falsy then
    let uid := generateUniqueID env.digestBytes
    { usedId := uid,
      jar := setCookie env.jar uniqueIDKey uid,
      digestComputed := true,
      redirectUrl := constructRedirectURL uid (fetchIPDataResult env.fetchOutcome)
        env.baseUrl env.extraParams env.timezone }
  else
    let uid := stored.getD []
    { usedId := uid,
      jar := env.jar,
      digestComputed := false,
      redirectUrl := constructRedirectURL uid (fetchIPDataResult env.fetchOutcome)
        env.baseUrl env.extraParams env.timezone }

/-- A concrete run environment whose jar already stores a nonempty
identifier. -/
def initEnvStored : InitEnv :=
  { jar := [(uniqueIDKey, jsStr "abc123")], digestBytes := List.replicate 32 0,
    fetchOutcome := FetchOutcome.transportError, timezone := jsStr "UTC",
    baseUrl := jsStr "https://x.test/a", extraParams := [] }

/-- A concrete run environment whose jar stores `uniqueID` with the empty
string as its value. -/
def initEnvEmptyCookie : InitEnv :=
  { jar := [(uniqueIDKey, [])], digestBytes := List.replicate 32 0,
    fetchOutcome := FetchOutcome.transportError, timezone := jsStr "UTC",
    baseUrl := jsStr "https://x.test/a", extraParams := [] }

/-! ## Basic lemmas about the embedded primitives -/

theorem percentDecode_cons_plus (rest : Str) :
    percentDecode (43 :: rest) = 32 :: percentDecode rest := by
  simp [percentDecode]

theorem percentDecode_cons_other (b : Nat) (rest : Str) (h37 : b ≠ 37) (h43 : b ≠ 43) :
    percentDecode (b :: rest) = b :: percentDecode rest := by
  rw [percentDecode.eq_def]
  split <;> simp_all

theorem percentDecode_cons_escape (h l : Nat) (rest : Str)
    (hh : isHexDigitByte h) (hl : isHexDigitByte l) :
    percentDecode (37 :: h :: l :: rest) = (hexVal h * 16 + hexVal l) :: percentDecode rest := by
  simp [percentDecode, hh, hl]

theorem splitSep_sep_free (sep : Nat) (l : Str) (h : sep ∉ l) : splitSep sep l = [l] := by
  induction l with
  | nil => rfl
  | cons b rest ih =>
      simp only [List.mem_cons, not_or] at h
      simp [splitSep, Ne.symm h.1, ih h.2]

theorem splitSep_append (sep : Nat) (a t : Str) (h : sep ∉ a) :
    splitSep sep (a ++ sep :: t) = a :: splitSep sep t := by
  induction a with
  | nil => simp [splitSep]
  | cons b rest ih =>
      simp only [List.mem_cons, not_or] at h
      simp [splitSep, Ne.symm h.1, ih h.2]

theorem splitSep_ne_nil (sep : Nat) (l : Str) : splitSep sep l ≠ [] := by
  cases l with
  | nil => simp [splitSep]
  | cons b rest => by_cases hb : b = sep <;> simp [splitSep, hb]

theorem mem_of_mem_splitSep (sep : Nat) (l piece : Str) (c : Nat)
    (hp : piece ∈ splitSep sep l) (hc : c ∈ piece) : c ∈ l := by
  induction l generalizing piece with
  | nil =>
      simp [splitSep] at hp
      subst hp
      simp at hc
  | cons b rest ih =>
      by_cases hb : b = sep
      · subst hb
        simp [splitSep] at hp
        rcases hp with hp | hp
        · subst hp; simp at hc
        · exact List.mem_cons_of_mem _ (ih piece hp hc)
      · simp [splitSep, hb] at hp
        rcases hr : splitSep sep rest with _ | ⟨p, ps⟩
        · exact absurd hr (splitSep_ne_nil sep rest)
        rw [hr] at hp
        simp at hp
        rcases hp with hp | hp
        · subst hp
          rcases List.mem_cons.mp hc with hc | hc
          · simp [hc]
          · exact List.mem_cons_of_mem _ (ih p (by rw [hr]; simp) hc)
        · exact List.mem_cons_of_mem _ (ih piece (by rw [hr]; exact List.mem_cons_of_mem _ hp) hc)

theorem splitSep_joinSep (sep : Nat) (pieces : List Str)
    (hfree : ∀ p ∈ pieces, sep ∉ p) (hne : pieces ≠ []) :
    splitSep sep (joinSep sep pieces) = pieces := by
  induction pieces with
  | nil => exact absurd rfl hne
  | cons p ps ih =>
      cases ps with
      | nil => simpa [joinSep] using splitSep_sep_free sep p (hfree p (by simp))
      | cons q qs =>
          have h1 : joinSep sep (p :: q :: qs) = p ++ sep :: joinSep sep (q :: qs) := rfl
          rw [h1, splitSep_append sep p _ (hfree p (by simp))]
          rw [ih (fun r hr => hfree r (List.mem_cons_of_mem _ hr)) (by simp)]

theorem splitFirstEq_append (a t : Str) (h : (61 : Nat) ∉ a) :
    splitFirstEq (a ++ 61 :: t) = (a, t) := by
  induction a with
  | nil => simp [splitFirstEq]
  | cons b rest ih =>
      simp only [List.mem_cons, not_or] at h
      simp [splitFirstEq, Ne.symm h.1, ih h.2]

theorem mem_splitFirstEq (s : Str) (c : Nat) :
    (c ∈ (splitFirstEq s).1 → c ∈ s) ∧ ((c ∈ (splitFirstEq s).2 → c ∈ s)) := by
  induction s with
  | nil => simp [splitFirstEq]
  | cons b rest ih =>
      by_cases hb : b = 61
      · subst hb
        simp [splitFirstEq]
        intro hc
        exact Or.inr hc
      · simp only [splitFirstEq, hb, if_false]
        constructor
        · intro hc
          rcases List.mem_cons.mp hc with hc | hc
          · simp [hc]
          · exact List.mem_cons_of_mem _ (ih.1 hc)
        · intro hc
          exact List.mem_cons_of_mem _ (ih.2 hc)

/-! ## The urlencoded serializer round-trips through percent-decoding -/

theorem isHexDigitByte_toUpperHexDigit (n : Nat) (h : n < 16) :
    isHexDigitByte (toUpperHexDigit n) = true := by
  unfold toUpperHexDigit isHexDigitByte
  split_ifs <;> simp <;> omega

theorem hexVal_toUpperHexDigit (n : Nat) (h : n < 16) :
    hexVal (toUpperHexDigit n) = n := by
  unfold toUpperHexDigit hexVal
  split_ifs <;> omega

theorem toUpperHexDigit_ne (n : Nat) :
    toUpperHexDigit n ≠ 37 ∧ toUpperHexDigit n ≠ 38 ∧ toUpperHexDigit n ≠ 43 ∧
    toUpperHexDigit n ≠ 61 ∧ toUpperHexDigit n ≠ 63 := by
  unfold toUpperHexDigit
  split_ifs <;> omega

theorem isUrlencodedSafe_spec (b : Nat) (h : isUrlencodedSafe b = true) :
    (48 ≤ b ∧ b ≤ 57) ∨ (65 ≤ b ∧ b ≤ 90) ∨ (97 ≤ b ∧ b ≤ 122) ∨
    b = 42 ∨ b = 45 ∨ b = 46 ∨ b = 95 := by
  unfold isUrlencodedSafe at h
  simp only [Bool.or_eq_true, Bool.and_eq_true, decide_eq_true_eq, beq_iff_eq] at h
  tauto

theorem urlencodeByte_space : urlencodeByte 32 = [43] := rfl

theorem urlencodeByte_safe (b : Nat) (h32 : b ≠ 32) (hs : isUrlencodedSafe b = true) :
    urlencodeByte b = [b] := by
  unfold urlencodeByte
  simp [h32, hs]

theorem urlencodeByte_escape (b : Nat) (h32 : b ≠ 32) (hs : ¬ isUrlencodedSafe b = true) :
    urlencodeByte b = [37, toUpperHexDigit (b / 16), toUpperHexDigit (b % 16)] := by
  unfold urlencodeByte percentEncodeByte
  simp [h32, hs]

theorem mem_urlencodeByte_ne (b c : Nat) (hc : c ∈ urlencodeByte b) :
    c ≠ 38 ∧ c ≠ 61 ∧ c ≠ 63 := by
  by_cases h32 : b = 32
  · subst h32
    rw [urlencodeByte_space] at hc
    simp at hc
    omega
  · by_cases hs : isUrlencodedSafe b = true
    · rw [urlencodeByte_safe b h32 hs] at hc
      simp at hc
      have hspec := isUrlencodedSafe_spec b hs
      omega
    · rw [urlencodeByte_escape b h32 hs] at hc
      simp at hc
      rcases hc with hc | hc | hc <;> subst hc
      · omega
      · exact ⟨(toUpperHexDigit_ne _).2.1, (toUpperHexDigit_ne _).2.2.2⟩
      · exact ⟨(toUpperHexDigit_ne _).2.1, (toUpperHexDigit_ne _).2.2.2⟩

theorem mem_urlencode_ne (s : Str) (c : Nat) (hc : c ∈ urlencode s) :
    c ≠ 38 ∧ c ≠ 61 ∧ c ≠ 63 := by
  unfold urlencode at hc
  rcases List.mem_flatten.mp hc with ⟨piece, hpiece, hcp⟩
  rcases List.mem_map.mp hpiece with ⟨b, hbmem, hb⟩
  exact mem_urlencodeByte_ne b c (hb ▸ hcp)

theorem percentDecode_urlencodeByte (b : Nat) (t : Str) (hb : b < 256) :
    percentDecode (urlencodeByte b ++ t) = b :: percentDecode t := by
  by_cases h32 : b = 32
  · subst h32
    rw [urlencodeByte_space]
    exact percentDecode_cons_plus t
  · by_cases hs : isUrlencodedSafe b = true
    · rw [urlencodeByte_safe b h32 hs]
      have hspec := isUrlencodedSafe_spec b hs
      exact percentDecode_cons_other b t (by omega) (by omega)
    · rw [urlencodeByte_escape b h32 hs]
      have hdiv : b / 16 < 16 := by omega
      have hmod : b % 16 < 16 := by omega
      show percentDecode (37 :: toUpperHexDigit (b / 16) :: toUpperHexDigit (b % 16) :: t)
        = b :: percentDecode t
      rw [percentDecode_cons_escape _ _ _
        (isHexDigitByte_toUpperHexDigit _ hdiv) (isHexDigitByte_toUpperHexDigit _ hmod)]
      rw [hexVal_toUpperHexDigit _ hdiv, hexVal_toUpperHexDigit _ hmod]
      congr 1
      omega

theorem percentDecode_urlencode_append (s t : Str) (hs : ∀ b ∈ s, b < 256) :
    percentDecode (urlencode s ++ t) = s ++ percentDecode t := by
  induction s with
  | nil => simp [urlencode]
  | cons b rest ih =>
      have h1 : urlencode (b :: rest) = urlencodeByte b ++ urlencode rest := by
        simp [urlencode]
      rw [h1, List.append_assoc, percentDecode_urlencodeByte b _ (hs b (by simp))]
      rw [ih (fun x hx => hs x (List.mem_cons_of_mem _ hx))]
      rfl

theorem percentDecode_urlencode (s : Str) (hs : ∀ b ∈ s, b < 256) :
    percentDecode (urlencode s) = s := by
  have h := percentDecode_urlencode_append s [] hs
  simpa [percentDecode] using h

/-! ## Parsing a serialized parameter list recovers it exactly -/

theorem serializePair_no_amp (p : Str × Str) (c : Nat) (hc : c ∈ serializePair p) : c ≠ 38 := by
  unfold serializePair at hc
  rcases List.mem_append.mp hc with hc | hc
  · exact (mem_urlencode_ne _ _ hc).1
  · rcases List.mem_cons.mp hc with hc | hc
    · omega
    · exact (mem_urlencode_ne _ _ hc).1

theorem serializePair_not_empty (p : Str × Str) : ¬ (serializePair p).isEmpty = true := by
  unfold serializePair
  cases h : urlencode p.1 <;> simp [h]

theorem decode_serializePair (q : Str × Str)
    (h1 : ∀ b ∈ q.1, b < 256) (h2 : ∀ b ∈ q.2, b < 256) :
    (percentDecode (splitFirstEq (serializePair q)).1,
     percentDecode (splitFirstEq (serializePair q)).2) = q := by
  have hnoeq : (61 : Nat) ∉ urlencode q.1 := fun hmem => (mem_urlencode_ne _ _ hmem).2.1 rfl
  unfold serializePair
  rw [splitFirstEq_append _ _ hnoeq]
  simp only
  rw [percentDecode_urlencode _ h1, percentDecode_urlencode _ h2]

theorem parseQueryBody_serializePairs (pairs : List (Str × Str))
    (hb : ∀ p ∈ pairs, (∀ b ∈ p.1, b < 256) ∧ (∀ b ∈ p.2, b < 256)) :
    parseQueryBody (serializePairs pairs) = pairs := by
  cases hpairs : pairs with
  | nil => rfl
  | cons p0 ps0 =>
      subst hpairs
      unfold parseQueryBody serializePairs
      rw [splitSep_joinSep 38 _
        (fun piece hpiece hmem => by
          rcases List.mem_map.mp hpiece with ⟨q, hq, hqe⟩
          exact serializePair_no_amp q 38 (hqe ▸ hmem) rfl)
        (by simp)]
      rw [List.filter_eq_self.mpr
        (fun piece hpiece => by
          rcases List.mem_map.mp hpiece with ⟨q, hq, hqe⟩
          simpa [hqe.symm] using serializePair_not_empty q)]
      rw [List.map_map]
      have hpt : ∀ q ∈ p0 :: ps0,
          ((fun piece => (percentDecode (splitFirstEq piece).1,
              percentDecode (splitFirstEq piece).2)) ∘ serializePair) q = id q := by
        intro q hq
        exact decode_serializePair q (hb q hq).1 (hb q hq).2
      rw [List.map_congr_left hpt, List.map_id]

/-! ## Every parsed parameter byte is below 256 when the query bytes are -/

theorem hexVal_lt_16 (b : Nat) (h : isHexDigitByte b = true) : hexVal b < 16 := by
  unfold isHexDigitByte at h
  simp only [Bool.or_eq_true, Bool.and_eq_true, decide_eq_true_eq] at h
  unfold hexVal
  split_ifs <;> omega

theorem percentDecode_cons_default (b : Nat) (rest : Str)
    (h37 : ∀ (h l : Nat) (r : List Nat), b = 37 → rest = h :: l :: r → False)
    (h43 : ¬ b = 43) :
    percentDecode (b :: rest) = b :: percentDecode rest := by
  rw [percentDecode.eq_def]
  split
  · simp_all
  · rename_i h l r heq
    rcases List.cons.inj heq with ⟨hb, hr⟩
    exact (h37 h l r hb hr).elim
  · rename_i r heq
    rcases List.cons.inj heq with ⟨hb, hr⟩
    exact absurd hb h43
  · rename_i s2 b2 r2 hc1 hc2 heq
    rcases List.cons.inj heq with ⟨hb, hr⟩
    subst hb
    subst hr
    rfl

theorem mem_percentDecode_bound (s : Str) (c : Nat) (hc : c ∈ percentDecode s) :
    c < 256 ∨ c ∈ s := by
  induction s using percentDecode.induct with
  | case1 => simp [percentDecode] at hc
  | case2 h l rest hhex ih =>
      obtain ⟨hh, hl⟩ := Bool.and_eq_true _ _ |>.mp hhex
      rw [percentDecode_cons_escape _ _ _ hh hl] at hc
      rcases List.mem_cons.mp hc with hc | hc
      · left
        have b1 := hexVal_lt_16 h hh
        have b2 := hexVal_lt_16 l hl
        omega
      · rcases ih hc with hlt | hmem
        · exact Or.inl hlt
        · exact Or.inr (by simp [hmem])
  | case3 h l rest hhex ih =>
      have heq : percentDecode (37 :: h :: l :: rest) = 37 :: percentDecode (h :: l :: rest) := by
        simp [percentDecode, hhex]
      rw [heq] at hc
      rcases List.mem_cons.mp hc with hc | hc
      · left; omega
      · rcases ih hc with hlt | hmem
        · exact Or.inl hlt
        · exact Or.inr (List.mem_cons_of_mem _ hmem)
  | case4 rest ih =>
      rw [percentDecode_cons_plus] at hc
      rcases List.mem_cons.mp hc with hc | hc
      · left; omega
      · rcases ih hc with hlt | hmem
        · exact Or.inl hlt
        · exact Or.inr (List.mem_cons_of_mem _ hmem)
  | case5 b rest hno37 hno43 ih =>
      rw [percentDecode_cons_default b rest hno37 hno43] at hc
      rcases List.mem_cons.mp hc with hc | hc
      · exact Or.inr (by simp [hc])
      · rcases ih hc with hlt | hmem
        · exact Or.inl hlt
        · exact Or.inr (List.mem_cons_of_mem _ hmem)

theorem parseQueryBody_bytes_bound (q : Str) (hq : ∀ c ∈ q, c < 256) :
    ∀ p ∈ parseQueryBody q, (∀ b ∈ p.1, b < 256) ∧ (∀ b ∈ p.2, b < 256) := by
  intro p hp
  unfold parseQueryBody at hp
  rcases List.mem_map.mp hp with ⟨piece, hpiece, hpe⟩
  have hpiece2 : piece ∈ splitSep 38 q := (List.mem_filter.mp hpiece).1
  have hmem : ∀ c ∈ piece, c < 256 := fun c hc =>
    hq c (mem_of_mem_splitSep 38 q piece c hpiece2 hc)
  constructor
  · intro b hb
    rw [← hpe] at hb
    simp only at hb
    rcases mem_percentDecode_bound _ b hb with h | h
    · exact h
    · exact hmem b ((mem_splitFirstEq piece b).1 h)
  · intro b hb
    rw [← hpe] at hb
    simp only at hb
    rcases mem_percentDecode_bound _ b hb with h | h
    · exact h
    · exact hmem b ((mem_splitFirstEq piece b).2 h)

theorem parseQuery_cons_ne (b : Nat) (rest : Str) (h63 : b ≠ 63) :
    parseQuery (b :: rest) = parseQueryBody (b :: rest) := by
  rw [parseQuery.eq_def]
  split
  · rename_i rest2 heq
    rcases List.cons.inj heq with ⟨hb, hr⟩
    exact absurd hb h63
  · rfl

theorem parseQuery_bytes_bound (search : Str) (hs : ∀ c ∈ search, c < 256) :
    ∀ p ∈ parseQuery search, (∀ b ∈ p.1, b < 256) ∧ (∀ b ∈ p.2, b < 256) := by
  cases search with
  | nil => exact parseQueryBody_bytes_bound [] hs
  | cons b rest =>
      by_cases h63 : b = 63
      · subst h63
        have heq : parseQuery (63 :: rest) = parseQueryBody rest := rfl
        rw [heq]
        exact parseQueryBody_bytes_bound rest (fun c hc => hs c (List.mem_cons_of_mem _ hc))
      · rw [parseQuery_cons_ne b rest h63]
        exact parseQueryBody_bytes_bound (b :: rest) hs

/-! ## Identifier generation facts -/

theorem toLowerHexDigit_isHex (n : Nat) (h : n < 16) :
    isLowerHexDigit (toLowerHexDigit n) = true := by
  unfold toLowerHexDigit isLowerHexDigit
  split_ifs <;> simp <;> omega

theorem natToHexAux_small (fuel n : Nat) (hf : 1 ≤ fuel) (h : n < 16) :
    natToHexAux fuel n = [toLowerHexDigit n] := by
  cases fuel with
  | zero => omega
  | succ k => simp [natToHexAux, h]

theorem natToHex_small (n : Nat) (h : n < 16) : natToHex n = [toLowerHexDigit n] := by
  cases n with
  | zero => rfl
  | succ k => exact natToHexAux_small _ _ (by omega) h

theorem natToHex_byte (b : Nat) (h1 : 16 ≤ b) (h2 : b < 256) :
    natToHex b = [toLowerHexDigit (b / 16), toLowerHexDigit (b % 16)] := by
  obtain ⟨k, rfl⟩ : ∃ k, b = k + 1 := ⟨b - 1, by omega⟩
  unfold natToHex
  have hn : ¬ (k + 1) < 16 := by omega
  simp only [natToHexAux, hn, if_false]
  rw [natToHexAux_small k ((k + 1) / 16) (by omega) (by omega)]
  rfl

theorem padStart2_natToHex_byte (b : Nat) (hb : b < 256) :
    (padStart2 (natToHex b)).length = 2 ∧
    ∀ c ∈ padStart2 (natToHex b), isLowerHexDigit c = true := by
  by_cases h16 : b < 16
  · rw [natToHex_small b h16]
    unfold padStart2
    norm_num
    exact ⟨by decide, toLowerHexDigit_isHex b h16⟩
  · rw [natToHex_byte b (by omega) hb]
    unfold padStart2
    norm_num
    exact ⟨toLowerHexDigit_isHex _ (by omega), toLowerHexDigit_isHex _ (by omega)⟩

theorem generateUniqueID_length_general (l : List Nat) (hl : ∀ b ∈ l, b < 256) :
    (generateUniqueID l).length = 2 * l.length := by
  induction l with
  | nil => rfl
  | cons b rest ih =>
      have h1 : generateUniqueID (b :: rest) = padStart2 (natToHex b) ++ generateUniqueID rest := by
        simp [generateUniqueID]
      rw [h1, List.length_append, (padStart2_natToHex_byte b (hl b (by simp))).1,
        ih (fun x hx => hl x (List.mem_cons_of_mem _ hx))]
      simp [List.length_cons]
      ring

/-- C9: for every digest the Web Crypto SHA-256 contract can produce (32
bytes, each below 256), `generateUniqueID` renders a lowercase hexadecimal
string of exactly 64 characters, two zero-padded digits per byte. -/
theorem generateUniqueID_hex64 (digest : List Nat)
    (hlen : digest.length = 32) (hbytes : ∀ b ∈ digest, b < 256) :
    (generateUniqueID digest).length = 64 ∧
    ∀ c ∈ generateUniqueID digest, isLowerHexDigit c = true := by
  constructor
  · rw [generateUniqueID_length_general digest hbytes, hlen]
  · intro c hc
    unfold generateUniqueID at hc
    rcases List.mem_flatten.mp hc with ⟨piece, hpiece, hcp⟩
    rcases List.mem_map.mp hpiece with ⟨b, hbmem, hbe⟩
    exact (padStart2_natToHex_byte b (hbytes b hbmem)).2 c (hbe ▸ hcp)

/-- Witness for C9 at the all-zero digest. -/
theorem generateUniqueID_hex64_witness :
    (List.replicate 32 0).length = 32 ∧ (∀ b ∈ List.replicate 32 (0 : Nat), b < 256) ∧
    ((generateUniqueID (List.replicate 32 0)).length = 64 ∧
      ∀ c ∈ generateUniqueID (List.replicate 32 0), isLowerHexDigit c = true) :=
  ⟨by decide, by decide, generateUniqueID_hex64 _ (by decide) (by decide)⟩

/-! ## Redirect composition claims -/

/-- C2 counterexample: on the example input given by the spec the composed URL is
not the string the spec displays, because `URLSearchParams` percent-encodes
the `/` and `,` of the location value. -/
theorem compose_example_not_spec_string :
    constructRedirectURL (jsStr "id1") emptyGeoRecord (jsStr "https://x.test/a") [] (jsStr "UTC") ≠
    jsStr "https://x.test/a?uniqueID=id1&timezone=UTC&location=N/A,N/A,N/A" := by
  decide

/-- C2 (amended): on the base `https://x.test/a`, empty passthrough,
identifier `id1`, timezone `UTC` and an empty `GeoRecord`, the composed
redirect URL is
`https://x.test/a?uniqueID=id1&timezone=UTC&location=N%2FA%2CN%2FA%2CN%2FA`,
the urlencoded serialization of `location=N/A,N/A,N/A`. -/
theorem compose_example_encoded :
    constructRedirectURL (jsStr "id1") emptyGeoRecord (jsStr "https://x.test/a") [] (jsStr "UTC") =
    jsStr "https://x.test/a?uniqueID=id1&timezone=UTC&location=N%2FA%2CN%2FA%2CN%2FA" := by
  decide

/-- C3: the composed URL is always the base, then `&` when the base
contains a `?` (code 63) and `?` otherwise, then the passthrough block —
when nonempty — in front of the derived block joined with `&` (code 38). -/
theorem compose_join_rule (uid : Str) (geo : GeoRecord) (base extra tz : Str) :
    constructRedirectURL uid geo base extra tz =
      base ++ (if 63 ∈ base then [38] else [63]) ++
        (if extra = [] then derivedParams uid tz geo
         else extra ++ 38 :: derivedParams uid tz geo) := by
  unfold constructRedirectURL
  by_cases hq : (63 : Nat) ∈ base <;> by_cases he : extra = [] <;> simp [hq, he]

/-! ## Enrichment claims -/

/-- C4 counterexample: on a transport error the resolved record is the
empty object — its fields are absent, not the all-placeholder record of
present `N/A` strings the spec describes. -/
theorem fetch_failure_not_placeholder :
    (fetchIPDataResult FetchOutcome.transportError).city = none ∧
    fetchIPDataResult FetchOutcome.transportError ≠ specPlaceholderGeoRecord := by
  constructor
  · rfl
  · decide

/-- C4 (amended): on every non-success outcome — transport error, abort,
non-2xx status, malformed JSON body — `fetchIPData` resolves (the wrapping
`try`/`catch` absorbs every failure) to the empty record with all fields
absent; the `N/A` placeholders are substituted downstream at each use
site, not here. -/
theorem fetch_failure_resolves_empty (o : FetchOutcome) (h : o.isFailure = true) :
    fetchIPDataResult o = emptyGeoRecord := by
  cases o <;> first | rfl | simp [FetchOutcome.isFailure] at h

/-- Witness for C4 at the transport-error outcome. -/
theorem fetch_failure_resolves_empty_witness :
    FetchOutcome.isFailure FetchOutcome.transportError = true ∧
    fetchIPDataResult FetchOutcome.transportError = emptyGeoRecord :=
  ⟨rfl, fetch_failure_resolves_empty FetchOutcome.transportError rfl⟩

/-- C5 counterexample: the claim fails for both entry points.  The
disclosure-route `fetchIPData` accepts a timeout parameter (default 5000)
but installs no abort controller, so a response settling at 6000 ms
resolves only at 6000 ms, past its 5000 ms timeout.  And the
redirect-route `DeviceFingerprint.fetchIPData` clears its abort timer at
header arrival: headers at 1000 ms with a body completing at 9000 ms
resolve at 9000 ms — also past the 5000 ms timeout — with the parsed
body, not a placeholder. -/
theorem fetch_can_hang_past_timeout :
    ((consoleFetchIPDataTimed 5000
        { headerTime := 6000, bodyTime := 6000,
          outcome := FetchOutcome.transportError }).2 = 6000 ∧
      ¬ (consoleFetchIPDataTimed 5000
        { headerTime := 6000, bodyTime := 6000,
          outcome := FetchOutcome.transportError }).2 ≤ 5000) ∧
    (fetchIPDataTimed 5000
        { headerTime := 1000, bodyTime := 9000,
          outcome := FetchOutcome.success
            { emptyGeoRecord with city := some (jsStr "Paris") } } =
      ({ emptyGeoRecord with city := some (jsStr "Paris") }, 9000) ∧
      ¬ (fetchIPDataTimed 5000
        { headerTime := 1000, bodyTime := 9000,
          outcome := FetchOutcome.success
            { emptyGeoRecord with city := some (jsStr "Paris") } }).2 ≤ 5000) := by
  refine ⟨⟨rfl, by decide⟩, by decide, by decide⟩

/-- C5 (amended): in `DeviceFingerprint.fetchIPData` the internal timeout
controller cancels the request exactly when the response headers have not
arrived by the timeout — the call then resolves to the empty record at
the timeout instant, within timeout-bound time; when the headers arrive in
time, `clearTimeout` has disarmed the abort and the call resolves with the
outcome at its own settle time, which the timeout no longer bounds.  The
disclosure-route `fetchIPData` ignores its timeout parameter altogether:
its result does not depend on it. -/
theorem fetch_timed_abort_on_late_headers (t : Nat) (env : RemoteEnv) :
    (t < env.headerTime →
      fetchIPDataTimed t env = (emptyGeoRecord, t) ∧ (fetchIPDataTimed t env).2 ≤ t) ∧
    (env.headerTime ≤ t →
      fetchIPDataTimed t env = (fetchIPDataResult env.outcome, fetchSettleTime env)) ∧
    (∀ t2, consoleFetchIPDataTimed t env = consoleFetchIPDataTimed t2 env) := by
  refine ⟨fun h => ?_, fun h => ?_, fun t2 => rfl⟩
  · unfold fetchIPDataTimed
    simp [h]
  · unfold fetchIPDataTimed
    simp [Nat.not_lt.mpr h]

/-- Witness for C5 at a request whose headers are late: the abort fires
and the call resolves to the empty record at the 5000 ms timeout. -/
theorem fetch_timed_abort_on_late_headers_witness :
    5000 < 7000 ∧
    fetchIPDataTimed 5000
      { headerTime := 7000, bodyTime := 8000,
        outcome := FetchOutcome.transportError } = (emptyGeoRecord, 5000) ∧
    (fetchIPDataTimed 5000
      { headerTime := 7000, bodyTime := 8000,
        outcome := FetchOutcome.transportError }).2 ≤ 5000 :=
  ⟨by decide,
   ((fetch_timed_abort_on_late_headers 5000
      { headerTime := 7000, bodyTime := 8000,
        outcome := FetchOutcome.transportError }).1 (by decide)).1,
   ((fetch_timed_abort_on_late_headers 5000
      { headerTime := 7000, bodyTime := 8000,
        outcome := FetchOutcome.transportError }).1 (by decide)).2⟩

/-! ## Storage expiry claim -/

/-- C7: `setCookie` in src/js/script.js computes the expiry offset
`days * 315360000000` — at the default 365 days that is 115106400000000 ms
(about 3650 years), not the `days * 86400000` (days to milliseconds) the
spec describes; the src/unnamed/part_000 variant of the same method does
compute `days * 86400000`. -/
theorem setCookie_expiry_divergence :
    setCookieExpiryOffsetJs 365 = 115106400000000 ∧
    setCookieExpiryOffsetJs 365 ≠ 365 * msPerDay ∧
    setCookieExpiryOffsetPart0 365 = 365 * msPerDay := by
  refine ⟨by norm_num [setCookieExpiryOffsetJs],
    by norm_num [setCookieExpiryOffsetJs, msPerDay],
    by norm_num [setCookieExpiryOffsetPart0, msPerDay]⟩

/-! ## Routing claims -/

/-- C10 counterexample: with the query `URL=0` the value `0` is a
nonempty string, which is truthy in JavaScript, so the extracted base URL
is `0` — not `null` as the claim asserts for values it calls falsy. -/
theorem url_zero_takes_redirect_route :
    (extractBaseUrlAndParams (jsStr "URL=0")).map Prod.fst = some (some (jsStr "0")) ∧
    some (jsStr "0") ≠ (none : Option Str) := by
  constructor
  · decide
  · simp

/-- C10 (amended): the empty string is the only falsy string value — the
base URL is `null` (disclosure route, no navigation) exactly when the
`URL` parameter is absent or maps to the empty string, and the run throws
(neither route) exactly when the value is nonempty but
`decodeURIComponent` rejects it. -/
theorem route_decision (search : Str) :
    ((extractBaseUrlAndParams search).map Prod.fst = some none ↔
      getParam (parseQuery search) urlKey = none ∨
      getParam (parseQuery search) urlKey = some []) ∧
    (extractBaseUrlAndParams search = none ↔
      ∃ v, getParam (parseQuery search) urlKey = some v ∧ v ≠ [] ∧
        decodeURIComponent v = none) := by
  unfold extractBaseUrlAndParams
  rcases hv : getParam (parseQuery search) urlKey with _ | v
  · simp [hv]
  · rcases v with _ | ⟨c, cs⟩
    · simp [hv]
    · rcases hd : decodeURIComponent (c :: cs) with _ | d <;> simp [hv, hd]

/-- C6: for every query whose character codes are bytes, the parameter
set of the passthrough string handed to the composer is exactly the
parsed original query minus every `URL` pair, the routing key never
appears in it, and the composer appends the passthrough string exactly
once, as one block in front of the derived block. -/
theorem passthrough_equals_query_minus_urlkey (search uid tz : Str) (geo : GeoRecord)
    (base : Str) (hb : ∀ c ∈ search, c < 256) :
    parseQueryBody (extraParamsOf search) =
      (parseQuery search).filter (fun p => !(p.1 == urlKey)) ∧
    (∀ p ∈ parseQueryBody (extraParamsOf search), p.1 ≠ urlKey) ∧
    constructRedirectURL uid geo base (extraParamsOf search) tz =
      base ++ (if 63 ∈ base then [38] else [63]) ++
        (if extraParamsOf search = [] then derivedParams uid tz geo
         else extraParamsOf search ++ 38 :: derivedParams uid tz geo) := by
  have h1 : parseQueryBody (extraParamsOf search) =
      (parseQuery search).filter (fun p => !(p.1 == urlKey)) := by
    unfold extraParamsOf
    apply parseQueryBody_serializePairs
    intro p hp
    exact parseQuery_bytes_bound search hb p (List.mem_filter.mp hp).1
  refine ⟨h1, ?_, ?_⟩
  · intro p hp
    rw [h1] at hp
    have h2 := (List.mem_filter.mp hp).2
    simpa using h2
  · unfold constructRedirectURL
    by_cases hq : (63 : Nat) ∈ base <;> by_cases he : extraParamsOf search = [] <;>
      simp [hq, he]

/-- Witness for C6 at the query `a=1&URL=x&b=2` with concrete composer
inputs. -/
theorem passthrough_equals_query_minus_urlkey_witness :
    (∀ c ∈ jsStr "a=1&URL=x&b=2", c < 256) ∧
    (parseQueryBody (extraParamsOf (jsStr "a=1&URL=x&b=2")) =
      (parseQuery (jsStr "a=1&URL=x&b=2")).filter (fun p => !(p.1 == urlKey)) ∧
    (∀ p ∈ parseQueryBody (extraParamsOf (jsStr "a=1&URL=x&b=2")), p.1 ≠ urlKey) ∧
    constructRedirectURL (jsStr "id1") emptyGeoRecord (jsStr "https://y.test/p")
        (extraParamsOf (jsStr "a=1&URL=x&b=2")) (jsStr "UTC") =
      jsStr "https://y.test/p" ++
        (if 63 ∈ jsStr "https://y.test/p" then [38] else [63]) ++
        (if extraParamsOf (jsStr "a=1&URL=x&b=2") = []
         then derivedParams (jsStr "id1") (jsStr "UTC") emptyGeoRecord
         else extraParamsOf (jsStr "a=1&URL=x&b=2") ++
           38 :: derivedParams (jsStr "id1") (jsStr "UTC") emptyGeoRecord)) :=
  ⟨by decide,
   passthrough_equals_query_minus_urlkey (jsStr "a=1&URL=x&b=2") (jsStr "id1") (jsStr "UTC")
     emptyGeoRecord (jsStr "https://y.test/p") (by decide)⟩

/-! ## The cookie write-then-read round trip -/

theorem isLowerHexDigit_unreserved (c : Nat) (h : isLowerHexDigit c = true) :
    isUriUnreserved c = true := by
  unfold isLowerHexDigit at h
  unfold isUriUnreserved
  simp only [Bool.or_eq_true, Bool.and_eq_true, decide_eq_true_eq, beq_iff_eq] at h ⊢
  omega

theorem isLowerHexDigit_ne_61 (c : Nat) (h : isLowerHexDigit c = true) : c ≠ 61 := by
  unfold isLowerHexDigit at h
  simp only [Bool.or_eq_true, Bool.and_eq_true, decide_eq_true_eq] at h
  omega

theorem encodeURIComponent_unreserved (s : Str) (h : ∀ c ∈ s, isUriUnreserved c = true) :
    encodeURIComponent s = s := by
  induction s with
  | nil => rfl
  | cons c rest ih =>
      have h1 : encodeURIComponent (c :: rest) =
          (if isUriUnreserved c then [c]
           else ((utf8Bytes c).map percentEncodeByte).flatten) ++ encodeURIComponent rest := by
        simp [encodeURIComponent]
      rw [h1]
      simp only [h c (by simp), if_true]
      rw [ih (fun x hx => h x (List.mem_cons_of_mem _ hx))]
      rfl

theorem cookie_prefix_name_eq (a n v : Str) (ha : (61 : Nat) ∉ a) (hn : (61 : Nat) ∉ n)
    (hpre : (a ++ [61]) <+: (n ++ 61 :: v)) : a = n := by
  induction a generalizing n with
  | nil =>
      cases n with
      | nil => rfl
      | cons m n2 =>
          simp only [List.nil_append, List.cons_append] at hpre
          rcases List.cons_prefix_cons.mp hpre with ⟨h1, h2⟩
          exact absurd (by simp [h1.symm]) hn
  | cons b a2 ih =>
      cases n with
      | nil =>
          simp only [List.cons_append, List.nil_append] at hpre
          rcases List.cons_prefix_cons.mp hpre with ⟨h1, h2⟩
          exact absurd (by simp [h1]) ha
      | cons m n2 =>
          simp only [List.cons_append] at hpre
          rcases List.cons_prefix_cons.mp hpre with ⟨h1, h2⟩
          have ha2 : (61 : Nat) ∉ a2 := fun hmem => ha (List.mem_cons_of_mem _ hmem)
          have hn2 : (61 : Nat) ∉ n2 := fun hmem => hn (List.mem_cons_of_mem _ hmem)
          subst h1
          rw [ih n2 ha2 hn2 h2]

theorem setCookie_cons_ne (p : Str × Str) (jar : CookieJar) (name v : Str)
    (hne : ¬ p.1 = name) :
    setCookie (p :: jar) name v = p :: setCookie jar name v := by
  unfold setCookie
  have hb : (p.1 == name) = false := beq_eq_false_iff_ne.mpr hne
  by_cases hany : jar.any (fun q => q.1 == name) <;> simp [hany, hb] <;>
    exact fun hcontra => absurd hcontra hne

theorem getCookie_cons_skip (p : Str × Str) (jar : CookieJar) (name : Str)
    (hnp : ¬ (name ++ [61]).isPrefixOf (p.1 ++ 61 :: p.2) = true) :
    getCookie (p :: jar) name = getCookie jar name := by
  unfold getCookie cookieRows
  rw [List.map_cons, List.find?_cons_of_neg _ (by simpa using hnp)]

theorem getCookie_cons_hit (p : Str × Str) (jar : CookieJar) (name : Str)
    (hv : (61 : Nat) ∉ p.2) (hn : (61 : Nat) ∉ name) (hname : p.1 = name) :
    getCookie (p :: jar) name = some p.2 := by
  unfold getCookie cookieRows
  have hpre : (name ++ [61]).isPrefixOf (p.1 ++ 61 :: p.2) = true := by
    rw [hname, List.isPrefixOf_iff_prefix]
    exact ⟨p.2, by simp⟩
  rw [List.map_cons, List.find?_cons_of_pos _ (by simpa using hpre), hname]
  show some ((splitSep 61 (name ++ 61 :: p.2)).getD 1 []) = some p.2
  rw [splitSep_append 61 name p.2 hn, splitSep_sep_free 61 p.2 hv]
  rfl

/-- C8: writing a lowercase-hexadecimal identifier under `uniqueID` and
reading it back returns the identical string, for every jar whose cookie
names contain no `=`: percent-encoding is the identity on lowercase
hexadecimal characters and `getCookie` does not decode. -/
theorem identity_write_read_roundtrip (jar : CookieJar) (id : Str)
    (hhex : ∀ b ∈ id, isLowerHexDigit b = true)
    (hjar : ∀ p ∈ jar, (61 : Nat) ∉ p.1) :
    getCookie (setCookie jar uniqueIDKey id) uniqueIDKey = some id := by
  have henc : encodeURIComponent id = id :=
    encodeURIComponent_unreserved id (fun c hc => isLowerHexDigit_unreserved c (hhex c hc))
  have hid61 : (61 : Nat) ∉ id := fun hmem => isLowerHexDigit_ne_61 61 (hhex 61 hmem) rfl
  have hkey61 : (61 : Nat) ∉ uniqueIDKey := by decide
  induction jar with
  | nil =>
      have h1 : setCookie [] uniqueIDKey id = [(uniqueIDKey, encodeURIComponent id)] := rfl
      rw [h1, henc]
      exact getCookie_cons_hit (uniqueIDKey, id) [] uniqueIDKey hid61 hkey61 rfl
  | cons p rest ih =>
      by_cases hp : p.1 = uniqueIDKey
      · have h1 : setCookie (p :: rest) uniqueIDKey id =
            (p.1, encodeURIComponent id) ::
              rest.map (fun q =>
                if q.1 == uniqueIDKey then (q.1, encodeURIComponent id) else q) := by
          unfold setCookie
          simp [hp]
        rw [h1, henc]
        exact getCookie_cons_hit (p.1, id) _ uniqueIDKey hid61 hkey61 hp
      · rw [setCookie_cons_ne p rest uniqueIDKey id hp]
        rw [getCookie_cons_skip p _ uniqueIDKey ?hnp]
        case hnp =>
          intro hpre
          rw [List.isPrefixOf_iff_prefix] at hpre
          exact hp (cookie_prefix_name_eq uniqueIDKey p.1 p.2 hkey61
            (hjar p (by simp)) hpre).symm
        exact ih (fun q hq => hjar q (List.mem_cons_of_mem _ hq))

/-- Witness for C8: write `deadbeef` into a jar holding one other cookie
and read it back. -/
theorem identity_write_read_roundtrip_witness :
    (∀ b ∈ jsStr "deadbeef", isLowerHexDigit b = true) ∧
    (∀ p ∈ [(jsStr "a", jsStr "1")], (61 : Nat) ∉ p.1) ∧
    getCookie (setCookie [(jsStr "a", jsStr "1")] uniqueIDKey (jsStr "deadbeef"))
      uniqueIDKey = some (jsStr "deadbeef") :=
  ⟨by decide, by decide, identity_write_read_roundtrip _ _ (by decide) (by decide)⟩

/-! ## Pipeline identity reuse -/

/-- C1 counterexample: with a stored `uniqueID` cookie whose value is the
empty string, the read returns a stored value (not absent), yet the run
computes a digest and writes to storage — `if (!uniqueID)` regenerates on
every falsy value, not only on absence. -/
theorem init_regenerates_on_empty_stored_value :
    getCookie initEnvEmptyCookie.jar uniqueIDKey = some [] ∧
    (initRun initEnvEmptyCookie).digestComputed = true ∧
    (initRun initEnvEmptyCookie).jar ≠ initEnvEmptyCookie.jar := by
  refine ⟨by decide, by decide, by decide⟩

/-- C1 (amended): whenever the stored `uniqueID` value exists and is
nonempty, the run uses it unchanged as the identifier of the constructed
redirect URL, computes no digest and leaves the jar untouched; a fresh
identifier is generated and written exactly when the read returns absent
or the stored value is the empty string. -/
theorem init_reuses_nonempty_stored_id (env : InitEnv) (v : Str)
    (hv : getCookie env.jar uniqueIDKey = some v) (hne : v ≠ []) :
    (initRun env).usedId = v ∧ (initRun env).digestComputed = false ∧
    (initRun env).jar = env.jar ∧
    (initRun env).redirectUrl =
      constructRedirectURL v (fetchIPDataResult env.fetchOutcome)
        env.baseUrl env.extraParams env.timezone := by
  unfold initRun
  rw [hv]
  have hie : v.isEmpty = false := by
    cases v with
    | nil => exact absurd rfl hne
    | cons c cs => rfl
  simp [hie]

/-- Witness for C1 at a jar storing `abc123`. -/
theorem init_reuses_nonempty_stored_id_witness :
    getCookie initEnvStored.jar uniqueIDKey = some (jsStr "abc123") ∧
    jsStr "abc123" ≠ [] ∧
    ((initRun initEnvStored).usedId = jsStr "abc123" ∧
     (initRun initEnvStored).digestComputed = false ∧
     (initRun initEnvStored).jar = initEnvStored.jar ∧
     (initRun initEnvStored).redirectUrl =
       constructRedirectURL (jsStr "abc123") (fetchIPDataResult initEnvStored.fetchOutcome)
         initEnvStored.baseUrl initEnvStored.extraParams initEnvStored.timezone) :=
  ⟨by decide, by decide,
   init_reuses_nonempty_stored_id initEnvStored (jsStr "abc123") (by decide) (by decide)⟩
